import Mathlib

/-!
Shallow embedding of the agent-coordination fabric of `sabiedu/sabiedu_edulms`
(`src/agents/communication/`): task queue (`task_queue_manager.py`,
`tidb_service.py`), message bus, result cache and session store
(`tidb_service.py`, `session_manager.py`) and the in-process notification
service (`notification_service.py`).

Database tables are modelled as Lean lists of typed rows, in insertion order
(the autoincrement surrogate id grows along the list).  Wall-clock instants
are integers; each operation takes the current instant `now` as an argument
(the Python code reads `datetime.now()` / SQL `NOW()`, all within one call).
`ORDER BY`-with-`LIMIT` queries are modelled as a stable selection over the
table in insertion order.  JSON payloads whose contents the fabric never
inspects are carried as opaque strings.
-/

/-! ### Task queue: data model (`tidb_service.py`, `agent_tasks` table) -/

/-- Task status enumeration (`TaskStatus` in `tidb_service.py`). -/
inductive TaskStatus where
  | pending
  | processing
  | completed
  | failed
  | retrying
deriving DecidableEq, Repr

/-- One row of the `agent_tasks` table.  The two reserved keys the code keeps
inside the `parameters` JSON are modelled as fields: `deps` is
`parameters["_dependencies"]` (absent and `[]` behave identically in the
code, both are `[]` here) and `delayUntil` is `parameters["_delay_until"]`
(`none` = key absent).  `paramsRest` carries the rest of the parameters
opaquely. -/
structure TaskRow where
  rowId : Nat
  task_id : String
  agent_name : String
  task_type : String
  deps : List String
  delayUntil : Option Int
  paramsRest : String
  priority : Int
  status : TaskStatus
  result : Option String
  error_message : Option String
  retry_count : Nat
  max_retries : Nat
  created_at : Int
  started_at : Option Int
  completed_at : Option Int
deriving DecidableEq, Repr

/-- `ORDER BY priority ASC, created_at ASC` as a boolean weak order. -/
def taskLeB (a b : TaskRow) : Bool :=
  decide (a.priority < b.priority) ||
    (decide (a.priority = b.priority) && decide (a.created_at ≤ b.created_at))

/-- The strict part of `taskLeB`. -/
def taskLtB (a b : TaskRow) : Bool :=
  decide (a.priority < b.priority) ||
    (decide (a.priority = b.priority) && decide (a.created_at < b.created_at))

/-- `SELECT … ORDER BY priority ASC, created_at ASC LIMIT 1` over rows in
insertion order: the first row attaining the least `(priority, created_at)`
key (ties keep the earlier row). -/
def selectBest : List TaskRow → Option TaskRow
  | [] => none
  | t :: ts =>
    match selectBest ts with
    | none => some t
    | some b => if taskLtB b t then some b else some t

/-- The `WHERE` clause of `TaskQueueManager.dequeue_task`: right agent,
`status = 'pending'`, optional `task_type IN (…)` filter (an empty filter is
no restriction, Python `if task_types:`), and `_delay_until` absent or not in
the future. -/
def pendingEligible (agent : String) (kinds : List String) (now : Int)
    (t : TaskRow) : Bool :=
  t.agent_name == agent && t.status == TaskStatus.pending &&
    (kinds.isEmpty || kinds.contains t.task_type) &&
    (match t.delayUntil with
     | none => true
     | some d => decide (d ≤ now))

/-- The dependency re-check of `dequeue_task`:
`SELECT COUNT(*) FROM agent_tasks WHERE task_id IN (deps) AND status != 'completed'`. -/
def depsIncompleteCount (db : List TaskRow) (deps : List String) : Nat :=
  (db.filter (fun t => deps.contains t.task_id &&
    !(t.status == TaskStatus.completed))).length

/-- `UPDATE agent_tasks SET status = 'processing', started_at = NOW() WHERE task_id = %s`. -/
def markProcessing (db : List TaskRow) (tid : String) (now : Int) : List TaskRow :=
  db.map fun t =>
    if t.task_id == tid then
      { t with status := TaskStatus.processing, started_at := some now }
    else t

/-- `TaskQueueManager.dequeue_task` (lines 248-342): select the single best
pre-eligible row; if it has dependencies, count its incomplete dependency
rows and return `None` (leaving the table untouched) when any exist;
otherwise mark that row processing and return it. -/
def dequeue_task (db : List TaskRow) (agent : String) (kinds : List String)
    (now : Int) : Option TaskRow × List TaskRow :=
  match selectBest (db.filter (pendingEligible agent kinds now)) with
  | none => (none, db)
  | some r =>
    if !r.deps.isEmpty && depsIncompleteCount db r.deps > 0 then
      (none, db)
    else
      (some { r with status := TaskStatus.processing, started_at := some now },
       markProcessing db r.task_id now)

/-- The claim's full eligibility predicate, written from the claim's words
(for comparison with `dequeue_task`): pending for the agent, delay passed,
kind in the filter, and every listed dependency present with
`status = completed`. -/
def claimFullyEligible (db : List TaskRow) (agent : String) (kinds : List String)
    (now : Int) (t : TaskRow) : Bool :=
  t.agent_name == agent && t.status == TaskStatus.pending &&
    (kinds.isEmpty || kinds.contains t.task_type) &&
    (match t.delayUntil with
     | none => true
     | some d => decide (d ≤ now)) &&
    t.deps.all (fun d =>
      db.any (fun u => u.task_id == d && u.status == TaskStatus.completed))

/-! ### Task queue: retry and failure (`fail_task`, `update_task_status`) -/

/-- `TaskQueueManager.retry_delays`. -/
def retry_delays : List Int := [1, 5, 15, 60, 300]

/-- One row's update in `TiDBCommunicationService.update_task_status`:
`completed` sets `completed_at = NOW()` and the result when given; `failed`
sets `completed_at = NOW()` and the error message when non-empty (Python
truthiness of `if error_message:`); `retrying` increments `retry_count`,
clears `started_at` and sets the error message when non-empty; other statuses
only write `status`. -/
def applyStatusUpdate (t : TaskRow) (st : TaskStatus) (result : Option String)
    (err : Option String) (now : Int) : TaskRow :=
  match st with
  | TaskStatus.completed =>
    { t with status := st, completed_at := some now,
             result := match result with
                       | some r => some r
                       | none => t.result }
  | TaskStatus.failed =>
    { t with status := st, completed_at := some now,
             error_message := match err with
                              | some s => if s.isEmpty then t.error_message else some s
                              | none => t.error_message }
  | TaskStatus.retrying =>
    { t with status := st, retry_count := t.retry_count + 1, started_at := none,
             error_message := match err with
                              | some s => if s.isEmpty then t.error_message else some s
                              | none => t.error_message }
  | _ => { t with status := st }

/-- `TiDBCommunicationService.update_task_status` (lines 1110-1160). -/
def update_task_status (db : List TaskRow) (tid : String) (st : TaskStatus)
    (result : Option String) (err : Option String) (now : Int) : List TaskRow :=
  db.map fun t => if t.task_id == tid then applyStatusUpdate t st result err now else t

/-- `SELECT … FROM agent_tasks WHERE task_id = %s` with `fetch_one`
(`get_task_status`): the first row with the id. -/
def findTask (db : List TaskRow) (tid : String) : Option TaskRow :=
  db.find? (fun t => t.task_id == tid)

/-- The permanent-failure tail of `fail_task`: mark the task `failed` and
answer `false`. -/
def failPermanent (db : List TaskRow) (tid err : String) (now : Int) :
    Bool × List TaskRow :=
  (false, update_task_status db tid TaskStatus.failed none (some err) now)

/-- The per-row effect of the retry-scheduling `UPDATE` in `fail_task`:
back to `pending` with `_delay_until` set. -/
def pendingWithDelay (du : Int) (t : TaskRow) : TaskRow :=
  { t with status := TaskStatus.pending, delayUntil := some du }

/-- The retry branch of `fail_task`: a `retrying` status update (which bumps
`retry_count` and records the error) followed by
`UPDATE … SET status = 'pending', parameters = JSON_SET(parameters,
'$._delay_until', now + retry_delays[min(retry_count, len-1)])`, indexed by
the pre-increment `retry_count` read from the fetched row `ts`; answers
`true`. -/
def failRetryStep (db : List TaskRow) (tid err : String) (now : Int)
    (ts : TaskRow) : Bool × List TaskRow :=
  let delay := retry_delays.getD (min ts.retry_count (retry_delays.length - 1)) 0
  let db1 := update_task_status db tid TaskStatus.retrying none (some err) now
  (true, db1.map fun t =>
    if t.task_id == tid then pendingWithDelay (now + delay) t else t)

/-- `TaskQueueManager.fail_task` (lines 379-433): with `retry` and retries
left, take the retry branch; otherwise fail permanently. -/
def fail_task (db : List TaskRow) (tid : String) (err : String) (retry : Bool)
    (now : Int) : Bool × List TaskRow :=
  if retry then
    match findTask db tid with
    | some ts =>
      if ts.retry_count < ts.max_retries then failRetryStep db tid err now ts
      else failPermanent db tid err now
    | none => failPermanent db tid err now
  else failPermanent db tid err now

/-! ### Order facts and `selectBest` lemmas -/

theorem taskLeB_total {a b : TaskRow} (h : taskLtB a b = false) : taskLeB b a = true := by
  simp only [taskLtB, Bool.or_eq_false_iff, Bool.and_eq_false_iff,
    decide_eq_false_iff_not, taskLeB, Bool.or_eq_true, Bool.and_eq_true,
    decide_eq_true_eq] at *
  omega

theorem taskLeB_trans {a b c : TaskRow} (hab : taskLeB a b = true)
    (hbc : taskLeB b c = true) : taskLeB a c = true := by
  simp only [taskLeB, Bool.or_eq_true, Bool.and_eq_true, decide_eq_true_eq] at *
  omega

theorem taskLtB_le {a b : TaskRow} (h : taskLtB a b = true) : taskLeB a b = true := by
  simp only [taskLtB, taskLeB, Bool.or_eq_true, Bool.and_eq_true,
    decide_eq_true_eq] at *
  omega

theorem selectBest_eq_none {l : List TaskRow} : selectBest l = none ↔ l = [] := by
  cases l with
  | nil => simp [selectBest]
  | cons t ts =>
    simp only [selectBest]
    cases selectBest ts with
    | none => simp
    | some b => by_cases h : taskLtB b t = true <;> simp [h]

theorem selectBest_mem {l : List TaskRow} {r : TaskRow}
    (h : selectBest l = some r) : r ∈ l := by
  induction l generalizing r with
  | nil => simp [selectBest] at h
  | cons t ts ih =>
    simp only [selectBest] at h
    cases hs : selectBest ts with
    | none =>
      rw [hs] at h
      dsimp only at h
      cases h
      exact List.mem_cons_self _ _
    | some b =>
      rw [hs] at h
      dsimp only at h
      by_cases hlt : taskLtB b t = true
      · rw [if_pos hlt] at h
        cases h
        exact List.mem_cons_of_mem _ (ih hs)
      · rw [if_neg hlt] at h
        cases h
        exact List.mem_cons_self _ _

theorem selectBest_min {l : List TaskRow} {r : TaskRow}
    (h : selectBest l = some r) : ∀ u ∈ l, taskLeB r u = true := by
  induction l generalizing r with
  | nil => simp [selectBest] at h
  | cons t ts ih =>
    intro u hu
    simp only [selectBest] at h
    cases hs : selectBest ts with
    | none =>
      rw [hs] at h
      dsimp only at h
      cases h
      rcases List.mem_cons.mp hu with h1 | h2
      · subst h1
        simp [taskLeB]
      · exact absurd h2 (by simp [selectBest_eq_none.mp hs])
    | some b =>
      rw [hs] at h
      dsimp only at h
      by_cases hlt : taskLtB b t = true
      · rw [if_pos hlt] at h
        cases h
        rcases List.mem_cons.mp hu with h1 | h2
        · subst h1; exact taskLtB_le hlt
        · exact ih hs u h2
      · rw [if_neg hlt] at h
        cases h
        rcases List.mem_cons.mp hu with h1 | h2
        · subst h1; simp [taskLeB]
        · have hlt' : taskLtB b t = false := by simpa using hlt
          exact taskLeB_trans (taskLeB_total hlt') (ih hs u h2)

/-! ### C1: dequeue_task -/

/-- C1 (amended): `dequeue_task` considers only the single least
`(priority, created_at)` row among those pending for the agent with the kind
filter and delay satisfied; it consumes that row (marking it `processing`,
`started_at = now`) only when that row has no incomplete dependency row, and
otherwise returns `none` leaving every row untouched — even when another
task satisfies the claim's full eligibility predicate. -/
theorem dequeue_task_amended_correct (db : List TaskRow) (agent : String)
    (kinds : List String) (now : Int) :
    (∀ t db', dequeue_task db agent kinds now = (some t, db') →
      ∃ r ∈ db,
        pendingEligible agent kinds now r = true ∧
        (∀ u ∈ db, pendingEligible agent kinds now u = true → taskLeB r u = true) ∧
        (r.deps = [] ∨ depsIncompleteCount db r.deps = 0) ∧
        t = { r with status := TaskStatus.processing, started_at := some now } ∧
        db' = markProcessing db r.task_id now) ∧
    (∀ db', dequeue_task db agent kinds now = (none, db') →
      db' = db ∧
      ((∀ u ∈ db, pendingEligible agent kinds now u = false) ∨
        ∃ r ∈ db,
          pendingEligible agent kinds now r = true ∧
          (∀ u ∈ db, pendingEligible agent kinds now u = true → taskLeB r u = true) ∧
          r.deps ≠ [] ∧ 0 < depsIncompleteCount db r.deps)) := by
  constructor
  · intro t db' h
    unfold dequeue_task at h
    cases hsel : selectBest (db.filter (pendingEligible agent kinds now)) with
    | none => rw [hsel] at h; dsimp only at h; exact absurd h (by simp)
    | some r =>
      rw [hsel] at h
      dsimp only at h
      have hrmem := List.mem_filter.mp (selectBest_mem hsel)
      have hrmin : ∀ u ∈ db, pendingEligible agent kinds now u = true →
          taskLeB r u = true := by
        intro u hu he
        exact selectBest_min hsel u (List.mem_filter.mpr ⟨hu, he⟩)
      by_cases hd : (!r.deps.isEmpty && decide (depsIncompleteCount db r.deps > 0)) = true
      · rw [if_pos hd] at h
        exact absurd h (by simp)
      · rw [if_neg hd] at h
        have hpair := Prod.mk.injEq _ _ _ _ ▸ h
        obtain ⟨ht, hdb⟩ := Prod.mk.inj h
        refine ⟨r, hrmem.1, hrmem.2, hrmin, ?_, (Option.some.inj ht).symm, hdb.symm⟩
        simp only [Bool.and_eq_true, Bool.not_eq_true', decide_eq_true_eq,
          not_and, Bool.not_eq_false] at hd
        by_cases hdeps : r.deps = []
        · exact Or.inl hdeps
        · refine Or.inr ?_
          have := hd (by simpa [List.isEmpty_iff] using hdeps)
          omega
  · intro db' h
    unfold dequeue_task at h
    cases hsel : selectBest (db.filter (pendingEligible agent kinds now)) with
    | none =>
      rw [hsel] at h
      dsimp only at h
      obtain ⟨-, hdb⟩ := Prod.mk.inj h
      refine ⟨hdb.symm, Or.inl ?_⟩
      intro u hu
      have hnil := selectBest_eq_none.mp hsel
      by_contra hne
      have : u ∈ db.filter (pendingEligible agent kinds now) :=
        List.mem_filter.mpr ⟨hu, by simpa using hne⟩
      simp [hnil] at this
    | some r =>
      rw [hsel] at h
      dsimp only at h
      have hrmem := List.mem_filter.mp (selectBest_mem hsel)
      have hrmin : ∀ u ∈ db, pendingEligible agent kinds now u = true →
          taskLeB r u = true := by
        intro u hu he
        exact selectBest_min hsel u (List.mem_filter.mpr ⟨hu, he⟩)
      by_cases hd : (!r.deps.isEmpty && decide (depsIncompleteCount db r.deps > 0)) = true
      · rw [if_pos hd] at h
        obtain ⟨-, hdb⟩ := Prod.mk.inj h
        simp only [Bool.and_eq_true, Bool.not_eq_true', decide_eq_true_eq] at hd
        refine ⟨hdb.symm, Or.inr ⟨r, hrmem.1, hrmem.2, hrmin, ?_, hd.2⟩⟩
        simpa [List.isEmpty_iff] using hd.1
      · rw [if_neg hd] at h
        exact absurd h (by simp)

/-- A processing task for another agent, serving as the unmet dependency. -/
def cexDepRow : TaskRow :=
  { rowId := 1, task_id := "dep1", agent_name := "other", task_type := "a",
    deps := [], delayUntil := none, paramsRest := "", priority := 5,
    status := TaskStatus.processing, result := none, error_message := none,
    retry_count := 0, max_retries := 3, created_at := 0,
    started_at := some 0, completed_at := none }

/-- Top-priority pending task whose dependency `dep1` is not completed. -/
def cexBlockedRow : TaskRow :=
  { rowId := 2, task_id := "t1", agent_name := "w", task_type := "a",
    deps := ["dep1"], delayUntil := none, paramsRest := "", priority := 1,
    status := TaskStatus.pending, result := none, error_message := none,
    retry_count := 0, max_retries := 3, created_at := 1,
    started_at := none, completed_at := none }

/-- Lower-priority pending task with no dependencies: fully eligible. -/
def cexReadyRow : TaskRow :=
  { rowId := 3, task_id := "t2", agent_name := "w", task_type := "a",
    deps := [], delayUntil := none, paramsRest := "", priority := 2,
    status := TaskStatus.pending, result := none, error_message := none,
    retry_count := 0, max_retries := 3, created_at := 2,
    started_at := none, completed_at := none }

/-- The three-row table of the counterexample. -/
def cexTaskDb : List TaskRow := [cexDepRow, cexBlockedRow, cexReadyRow]

/-- C1 counterexample: `dequeue_task` returns `none` (consuming nothing)
although `t2` satisfies the claim's full eligibility predicate — the blocked
top-priority task `t1` prevents the fully eligible `t2` from being
returned, contradicting "returns nil only when no task satisfies the full
predicate". -/
theorem dequeue_task_cex :
    (dequeue_task cexTaskDb "w" [] 10).1 = none ∧
    (dequeue_task cexTaskDb "w" [] 10).2 = cexTaskDb ∧
    cexReadyRow ∈ cexTaskDb ∧
    claimFullyEligible cexTaskDb "w" [] 10 cexReadyRow = true := by
  decide

/-! ### C2: fail_task -/

/-- A keyed conditional update commutes with `find?` on the key: when the
update preserves the key predicate, the first matching row of the updated
table is the updated first matching row. -/
theorem find?_keyed_update {α : Type} (l : List α) (p : α → Bool) (f : α → α)
    (hf : ∀ a, p a = true → p (f a) = true) :
    (l.map fun a => if p a then f a else a).find? p = (l.find? p).map f := by
  induction l with
  | nil => rfl
  | cons a l ih =>
    by_cases h : p a = true
    · simp [List.find?_cons, h, hf a h]
    · have h' : p a = false := by simpa using h
      simp [List.find?_cons, h', ih]

/-- C2: `fail_task` with `retry = true` on an existing task: with retries
left it answers `true` and the row becomes `pending` again with
`retry_count` incremented by one, `started_at` cleared, the error recorded
and `_delay_until = now + retry_delays[min(pre-increment retry_count, 4)]`;
with retries exhausted it answers `false` and the row becomes terminally
`failed` with `completed_at = now` and the error recorded.  Successive
retried failures therefore increase `retry_count` by exactly one each until
`max_retries`, and the next failure is terminal. -/
theorem fail_task_correct (db : List TaskRow) (tid err : String) (now : Int)
    (ts : TaskRow) (hfind : findTask db tid = some ts) (herr : err ≠ "") :
    (ts.retry_count < ts.max_retries →
      (fail_task db tid err true now).1 = true ∧
      findTask (fail_task db tid err true now).2 tid =
        some { ts with
               status := TaskStatus.pending,
               retry_count := ts.retry_count + 1,
               started_at := none,
               error_message := some err,
               delayUntil := some (now +
                 retry_delays.getD (min ts.retry_count (retry_delays.length - 1)) 0) }) ∧
    (ts.max_retries ≤ ts.retry_count →
      (fail_task db tid err true now).1 = false ∧
      findTask (fail_task db tid err true now).2 tid =
        some { ts with
               status := TaskStatus.failed,
               completed_at := some now,
               error_message := some err }) := by
  have hne : err.isEmpty = false := by
    cases he : err.isEmpty
    · rfl
    · exact absurd ((String.isEmpty_iff err).mp he) herr
  have hperm : findTask (failPermanent db tid err now).2 tid =
      some { ts with
             status := TaskStatus.failed,
             completed_at := some now,
             error_message := some err } := by
    unfold failPermanent update_task_status findTask
    dsimp only
    rw [find?_keyed_update db (fun t => t.task_id == tid)
      (fun t => applyStatusUpdate t TaskStatus.failed none (some err) now)
      (fun a ha => ha)]
    unfold findTask at hfind
    rw [hfind]
    simp [applyStatusUpdate, hne]
  constructor
  · intro hlt
    have hrt : fail_task db tid err true now = failRetryStep db tid err now ts := by
      unfold fail_task
      rw [hfind, if_pos (show true = true from rfl)]
      dsimp only
      rw [if_pos hlt]
    rw [hrt]
    refine ⟨rfl, ?_⟩
    unfold failRetryStep findTask
    dsimp only
    rw [find?_keyed_update _ (fun t => t.task_id == tid)
      (pendingWithDelay (now +
        retry_delays.getD (min ts.retry_count (retry_delays.length - 1)) 0))
      (fun a ha => ha)]
    unfold update_task_status
    rw [find?_keyed_update db (fun t => t.task_id == tid)
      (fun t => applyStatusUpdate t TaskStatus.retrying none (some err) now)
      (fun a ha => ha)]
    unfold findTask at hfind
    rw [hfind]
    simp [applyStatusUpdate, pendingWithDelay, hne]
  · intro hge
    have hnlt : ¬ ts.retry_count < ts.max_retries := by omega
    have hrt : fail_task db tid err true now = failPermanent db tid err now := by
      unfold fail_task
      rw [hfind, if_pos (show true = true from rfl)]
      dsimp only
      rw [if_neg hnlt]
    rw [hrt]
    exact ⟨rfl, hperm⟩

/-- A fresh pending task used to witness `fail_task_correct`. -/
def witFailRow : TaskRow :=
  { rowId := 1, task_id := "t", agent_name := "w", task_type := "a",
    deps := [], delayUntil := none, paramsRest := "", priority := 5,
    status := TaskStatus.processing, result := none, error_message := none,
    retry_count := 0, max_retries := 3, created_at := 0,
    started_at := some 0, completed_at := none }

/-- Witness for `fail_task_correct`: on a one-row table with
`retry_count = 0 < max_retries = 3`, failing with retry answers `true`. -/
theorem fail_task_correct_witness :
    (fail_task [witFailRow] "t" "boom" true 100).1 = true := by
  have h := fail_task_correct [witFailRow] "t" "boom" 100 witFailRow
    (by decide) (by decide)
  exact (h.1 (by decide)).1

/-! ### Message bus: data model (`agent_messages` table) -/

/-- One row of the `agent_messages` table (`AgentMessage` in
`tidb_service.py`); `message` is the JSON payload text, never inspected. -/
structure MessageRow where
  id : Nat
  channel : String
  sender_agent : String
  recipient_agent : Option String
  message : String
  priority : Int
  created_at : Int
  processed : Bool
  processed_at : Option Int
  processed_by : Option String
deriving DecidableEq, Repr

/-- `TiDBCommunicationService.mark_message_processed` (lines 432-456):
`UPDATE agent_messages SET processed = TRUE, processed_at = NOW(),
processed_by = %s WHERE id = %s AND processed = FALSE`.  The Python function
is annotated `-> None` and returns no value; the first component models its
return value (`none` = Python `None`, `some b` would be a returned
boolean). -/
def mark_message_processed (db : List MessageRow) (mid : Nat)
    (agent : String) (now : Int) : Option Bool × List MessageRow :=
  (none, db.map fun m =>
    if m.id == mid && !m.processed then
      { m with processed := true, processed_at := some now,
               processed_by := some agent }
    else m)

/-! ### C3: mark_message_processed (ack) -/

/-- A keyed conditional update is the identity when no row satisfies the
condition. -/
theorem map_if_eq_self {α : Type} (l : List α) (c : α → Bool) (f : α → α)
    (h : ∀ x ∈ l, c x = false) : (l.map fun a => if c a then f a else a) = l := by
  induction l with
  | nil => rfl
  | cons a l ih =>
    have ha : c a = false := h a (List.mem_cons_self _ _)
    simp only [List.map_cons, ha, Bool.false_eq_true, if_false,
      ih (fun x hx => h x (List.mem_cons_of_mem _ hx))]

/-- After one ack of `mid`, no row still satisfies the ack condition for
`mid`. -/
theorem mark_message_processed_clears (db : List MessageRow) (mid : Nat)
    (agent : String) (now : Int) :
    ∀ x ∈ (mark_message_processed db mid agent now).2,
      (x.id == mid && !x.processed) = false := by
  intro x hx
  unfold mark_message_processed at hx
  rcases List.mem_map.mp hx with ⟨m, _, rfl⟩
  by_cases hc : (m.id == mid && !m.processed) = true
  · rw [if_pos hc]
    simp
  · rw [if_neg hc]
    simpa using hc

/-- C3 (amended): the ack update is conditional — processed rows and rows
with a different id are left exactly as they are, an unprocessed row with
the id gets `processed = true`, `processed_at = now`, `processed_by = agent`
— and a second ack of the same id leaves the table unchanged; but the call
returns `None` (no boolean result), not true-iff-updated. -/
theorem mark_message_processed_amended (db : List MessageRow) (mid : Nat)
    (agent agent2 : String) (now now2 : Int) :
    (mark_message_processed db mid agent now).1 = none ∧
    (∀ m ∈ db, m.processed = true →
      m ∈ (mark_message_processed db mid agent now).2) ∧
    (∀ m ∈ db, m.id ≠ mid →
      m ∈ (mark_message_processed db mid agent now).2) ∧
    (∀ m ∈ db, m.id = mid → m.processed = false →
      { m with processed := true, processed_at := some now,
               processed_by := some agent } ∈
        (mark_message_processed db mid agent now).2) ∧
    (mark_message_processed (mark_message_processed db mid agent now).2
        mid agent2 now2).2 =
      (mark_message_processed db mid agent now).2 := by
  refine ⟨rfl, ?_, ?_, ?_, ?_⟩
  · intro m hm hp
    exact List.mem_map.mpr ⟨m, hm, by simp [hp]⟩
  · intro m hm hne
    exact List.mem_map.mpr ⟨m, hm, by simp [hne]⟩
  · intro m hm hid hp
    refine List.mem_map.mpr ⟨m, hm, ?_⟩
    rw [if_pos (by simp [hid, hp])]
  · exact map_if_eq_self _ _ _ (mark_message_processed_clears db mid agent now)

/-- The unprocessed message of the C3 counterexample. -/
def cexMsgRow : MessageRow :=
  { id := 1, channel := "ops", sender_agent := "A", recipient_agent := none,
    message := "x", priority := 5, created_at := 0, processed := false,
    processed_at := none, processed_by := none }

/-- C3 counterexample: acking the unprocessed message does update the row
(the table changes), yet the call does not return `true` — it returns
`None`, so "returns true iff a row was updated" fails on the code. -/
theorem mark_message_processed_cex :
    (mark_message_processed [cexMsgRow] 1 "B" 7).2 ≠ [cexMsgRow] ∧
    (mark_message_processed [cexMsgRow] 1 "B" 7).1 ≠ some true := by
  decide

/-! ### C4: poll_messages -/

/-- The `WHERE` clause of `TiDBCommunicationService.poll_messages` (lines
349-416): `channel = %s AND (recipient_agent IS NULL OR recipient_agent =
%s)`, plus `processed = FALSE` unless `include_processed`. -/
def msgMatches (channel agent : String) (include_processed : Bool)
    (m : MessageRow) : Bool :=
  m.channel == channel &&
    (m.recipient_agent.isNone || m.recipient_agent == some agent) &&
    (include_processed || !m.processed)

/-- `ORDER BY priority ASC, created_at ASC` for messages as a boolean weak
order. -/
def msgLeB (a b : MessageRow) : Bool :=
  decide (a.priority < b.priority) ||
    (decide (a.priority = b.priority) && decide (a.created_at ≤ b.created_at))

/-- The `ORDER BY priority ASC, created_at ASC` contract: what the DBMS
guarantees about the row order it returns — a permutation of the selected
rows that is non-decreasing in the two sort keys.  The query names no
further key, so rows with equal `(priority, created_at)` may come back in
any order. -/
def sqlOrderByMsgs (rows ordered : List MessageRow) : Prop :=
  ordered.Perm rows ∧ ordered.Pairwise (fun a b => msgLeB a b = true)

instance (rows ordered : List MessageRow) :
    Decidable (sqlOrderByMsgs rows ordered) := by
  unfold sqlOrderByMsgs
  exact inferInstance

/-- `TiDBCommunicationService.poll_messages` (lines 349-416): the rows
satisfying the `WHERE` clause, in the order the engine returns them
(`engine` stands for the DBMS's chosen output order of the selected rows;
the theorems constrain it by `sqlOrderByMsgs`), cut to `limit`.  The call
runs only a `SELECT`, so the table after the call (second component) is the
table given. -/
def poll_messages (engine : List MessageRow → List MessageRow)
    (db : List MessageRow) (channel agent : String) (limit : Nat)
    (include_processed : Bool) : List MessageRow × List MessageRow :=
  ((engine (db.filter (msgMatches channel agent include_processed))).take limit,
   db)

/-- Strict lexicographic order on `(priority, created_at, id)` — the
claim's poll order, with the surrogate id as the last component. -/
def msgTripleLt (a b : MessageRow) : Prop :=
  a.priority < b.priority ∨
    (a.priority = b.priority ∧
      (a.created_at < b.created_at ∨
        (a.created_at = b.created_at ∧ a.id < b.id)))

instance : DecidableRel msgTripleLt := fun a b => by
  unfold msgTripleLt
  exact inferInstance

/-- C4 (amended): for every engine ordering satisfying the two-key
`ORDER BY` contract, `poll_messages` writes nothing, returns at most
`limit` rows, each a table row on the requested channel addressed to the
agent or broadcast and unprocessed unless `include_processed`, and the
returned list is non-decreasing in `(priority ASC, created_at ASC)`.  The
query guarantees no order among rows with equal `(priority, created_at)` —
in particular no id tiebreak. -/
theorem poll_messages_amended_correct
    (engine : List MessageRow → List MessageRow) (db : List MessageRow)
    (channel agent : String) (limit : Nat) (include_processed : Bool)
    (hengine : sqlOrderByMsgs
      (db.filter (msgMatches channel agent include_processed))
      (engine (db.filter (msgMatches channel agent include_processed)))) :
    (poll_messages engine db channel agent limit include_processed).2 = db ∧
    (poll_messages engine db channel agent limit include_processed).1.length ≤
      limit ∧
    (∀ m ∈ (poll_messages engine db channel agent limit include_processed).1,
      m ∈ db ∧ m.channel = channel ∧
      (m.recipient_agent = none ∨ m.recipient_agent = some agent) ∧
      (include_processed = false → m.processed = false)) ∧
    (poll_messages engine db channel agent limit include_processed).1.Pairwise
      (fun a b => msgLeB a b = true) := by
  obtain ⟨hperm, hsorted⟩ := hengine
  refine ⟨rfl, List.length_take_le _ _, ?_,
    hsorted.sublist (List.take_sublist _ _)⟩
  intro m hm
  have hms : m ∈ engine (db.filter (msgMatches channel agent include_processed)) :=
    (List.take_sublist _ _).subset hm
  have hmf := List.mem_filter.mp (hperm.mem_iff.mp hms)
  have hmatch := hmf.2
  simp only [msgMatches, Bool.and_eq_true, Bool.or_eq_true, beq_iff_eq,
    Option.isNone_iff_eq_none, Bool.not_eq_true'] at hmatch
  refine ⟨hmf.1, hmatch.1.1, ?_, ?_⟩
  · rcases hmatch.1.2 with h | h
    · exact Or.inl h
    · exact Or.inr h
  · intro hinc
    rcases hmatch.2 with h | h
    · rw [hinc] at h; cases h
    · exact h

/-- S1's two broadcast messages: priority 3 then priority 1. -/
def wMsg1 : MessageRow :=
  { id := 1, channel := "ops", sender_agent := "A", recipient_agent := none,
    message := "n1", priority := 3, created_at := 0, processed := false,
    processed_at := none, processed_by := none }

/-- The later but more urgent message of the witness table. -/
def wMsg2 : MessageRow :=
  { id := 2, channel := "ops", sender_agent := "A", recipient_agent := none,
    message := "n2", priority := 1, created_at := 1, processed := false,
    processed_at := none, processed_by := none }

/-- Witness for `poll_messages_amended_correct`: reversing the two
distinct-priority rows is an admissible engine ordering (it puts priority 1
first). -/
theorem poll_messages_amended_witness :
    (poll_messages List.reverse [wMsg1, wMsg2] "ops" "B" 10 false).1.length ≤
      10 :=
  (poll_messages_amended_correct List.reverse [wMsg1, wMsg2] "ops" "B" 10
    false (by decide)).2.1

/-- First of two rows that tie on both sort keys. -/
def cexTieMsg1 : MessageRow :=
  { id := 1, channel := "ops", sender_agent := "A", recipient_agent := none,
    message := "m1", priority := 5, created_at := 0, processed := false,
    processed_at := none, processed_by := none }

/-- Second row with the same `(priority, created_at)` but a larger id. -/
def cexTieMsg2 : MessageRow :=
  { id := 2, channel := "ops", sender_agent := "A", recipient_agent := none,
    message := "m2", priority := 5, created_at := 0, processed := false,
    processed_at := none, processed_by := none }

/-- C4 counterexample: the query orders by `(priority, created_at)` only,
so returning the two equal-key rows in reversed insertion order satisfies
the `ORDER BY` contract; with that admissible ordering `poll_messages`
returns ids `[2, 1]`, whose adjacent pair violates the
`(priority ASC, created_at ASC, id ASC)` order — the claimed id-ASC
tiebreak is not a guarantee of the program. -/
theorem poll_messages_order_cex :
    sqlOrderByMsgs ([cexTieMsg1, cexTieMsg2].filter (msgMatches "ops" "B" false))
      (List.reverse ([cexTieMsg1, cexTieMsg2].filter (msgMatches "ops" "B" false))) ∧
    (poll_messages List.reverse [cexTieMsg1, cexTieMsg2] "ops" "B" 10
      false).1.map MessageRow.id = [2, 1] ∧
    ¬ msgTripleLt cexTieMsg2 cexTieMsg1 := by
  decide

/-! ### Result cache: data model (`agent_cache` table) -/

/-- One row of the `agent_cache` table; `result` is the `json.dumps`ed value
text.  `cache_key` is the primary key. -/
structure CacheRow where
  cache_key : String
  agent_name : String
  result : String
  result_type : Option String
  expires_at : Int
  created_at : Int
  access_count : Nat
  last_accessed : Int
deriving DecidableEq, Repr

/-- The hit bump of `get_cache`: `UPDATE agent_cache SET access_count =
access_count + 1, last_accessed = NOW() WHERE cache_key = %s`. -/
def bumpAccess (now : Int) (t : CacheRow) : CacheRow :=
  { t with access_count := t.access_count + 1, last_accessed := now }

/-- `TiDBCommunicationService.get_cache` (lines 644-717): `SELECT … WHERE
cache_key = %s AND expires_at > NOW()`; on a fetched row, run the access
bump and return `json.loads(result) if result else None` (an empty text is
Python-falsy); on no row, return `None` without writing. -/
def get_cache (db : List CacheRow) (key : String) (agent : String)
    (now : Int) : Option String × List CacheRow :=
  match db.find? (fun r => r.cache_key == key && decide (now < r.expires_at)) with
  | some r =>
    (if r.result.isEmpty then none else some r.result,
     db.map fun t => if t.cache_key == key then bumpAccess now t else t)
  | none => (none, db)

/-- The `ON DUPLICATE KEY UPDATE` arm of `set_cache`: overwrite
`result/result_type/expires_at`, increment `access_count`, refresh
`last_accessed`. -/
def overwriteEntry (value : String) (rtype : Option String) (expires now : Int)
    (r : CacheRow) : CacheRow :=
  { r with result := value, result_type := rtype, expires_at := expires,
           access_count := r.access_count + 1, last_accessed := now }

/-- `TiDBCommunicationService.set_cache` (lines 573-642): `INSERT INTO
agent_cache … ON DUPLICATE KEY UPDATE …` with `expires_at = now +
ttl_seconds`.  Keyed on the primary key `cache_key`: an existing row is
overwritten in place, otherwise a fresh row is appended with the schema
defaults (`access_count` starts at 0, `created_at`/`last_accessed` at
`NOW()`). -/
def set_cache (db : List CacheRow) (key value : String) (ttl : Int)
    (agent : String) (rtype : Option String) (now : Int) : List CacheRow :=
  let expires := now + ttl
  if (db.find? (fun r => r.cache_key == key)).isSome then
    db.map fun r =>
      if r.cache_key == key then overwriteEntry value rtype expires now r else r
  else
    db ++ [{ cache_key := key, agent_name := agent, result := value,
             result_type := rtype, expires_at := expires, created_at := now,
             access_count := 0, last_accessed := now }]

/-! ### C6: get_cache -/

/-- `find?` returns the unique satisfying element. -/
theorem find?_of_unique {α : Type} (l : List α) (p : α → Bool) (r : α)
    (hr : r ∈ l) (hp : p r = true) (hu : ∀ t ∈ l, p t = true → t = r) :
    l.find? p = some r := by
  induction l with
  | nil => cases hr
  | cons a l ih =>
    by_cases ha : p a = true
    · rw [List.find?_cons_of_pos _ ha, hu a (List.mem_cons_self _ _) ha]
    · rw [List.find?_cons_of_neg _ ha]
      rcases List.mem_cons.mp hr with rfl | hr2
    
      · exact absurd hp ha
      · exact ih hr2 (fun t ht hpt => hu t (List.mem_cons_of_mem _ ht) hpt)

/-- C6: a cache `get` misses (returns `none` and leaves the table exactly as
it was) whenever every row for the key is expired or absent, and hits
whenever the key's unique row is strictly unexpired — returning its stored
value and rewriting only the key's row, with `access_count` incremented and
`last_accessed` refreshed. -/
theorem get_cache_correct (db : List CacheRow) (key agent : String) (now : Int) :
    ((∀ t ∈ db, t.cache_key ≠ key ∨ t.expires_at ≤ now) →
      (get_cache db key agent now).1 = none ∧
      (get_cache db key agent now).2 = db) ∧
    (∀ r ∈ db, r.cache_key = key → (∀ t ∈ db, t.cache_key = key → t = r) →
      now < r.expires_at → r.result ≠ "" →
      (get_cache db key agent now).1 = some r.result ∧
      bumpAccess now r ∈ (get_cache db key agent now).2 ∧
      (∀ t ∈ db, t.cache_key ≠ key → t ∈ (get_cache db key agent now).2)) := by
  constructor
  · intro hmiss
    have hnone : db.find? (fun r => r.cache_key == key && decide (now < r.expires_at)) = none := by
      rw [List.find?_eq_none]
      intro x hx
      rcases hmiss x hx with h | h
      · simp [h]
      · simp only [Bool.and_eq_true, decide_eq_true_eq, not_and]
        intro _
        omega
    unfold get_cache
    rw [hnone]
    exact ⟨rfl, rfl⟩
  · intro r hr hkey huniq hlive hres
    have hfind : db.find? (fun t => t.cache_key == key && decide (now < t.expires_at)) = some r := by
      refine find?_of_unique db _ r hr (by simp [hkey, hlive]) ?_
      intro t ht hpt
      simp only [Bool.and_eq_true, beq_iff_eq] at hpt
      exact huniq t ht hpt.1
    have hne : r.result.isEmpty = false := by
      cases he : r.result.isEmpty
      · rfl
      · exact absurd ((String.isEmpty_iff r.result).mp he) hres
    unfold get_cache
    rw [hfind]
    refine ⟨by simp [hne], ?_, ?_⟩
    · exact List.mem_map.mpr ⟨r, hr, by rw [if_pos (by simp [hkey])]⟩
    · intro t ht hne2
      exact List.mem_map.mpr ⟨t, ht, by rw [if_neg (by simp [hne2])]⟩

/-! ### C7: set_cache upsert -/

/-- A keyed in-place update commutes with `filter` on the key when the
update leaves the key unchanged. -/
theorem filter_keyed_update {α : Type} (l : List α) (p : α → Bool) (f : α → α)
    (hp : ∀ a, p (f a) = p a) :
    (l.map fun a => if p a then f a else a).filter p = (l.filter p).map f := by
  induction l with
  | nil => rfl
  | cons a l ih =>
    by_cases h : p a = true
    · simp only [List.map_cons, if_pos h, List.filter_cons, hp a, h, if_true, ih]
    · have h' : p a = false := by simpa using h
      simp only [List.map_cons, h', Bool.false_eq_true, if_false,
        List.filter_cons, ih]

/-- `set_cache` on a present key is the in-place overwrite. -/
theorem set_cache_eq_update (db : List CacheRow) (key value : String)
    (ttl : Int) (agent : String) (rtype : Option String) (now : Int)
    (h : (db.find? (fun r => r.cache_key == key)).isSome = true) :
    set_cache db key value ttl agent rtype now =
      db.map fun r => if r.cache_key == key then
        overwriteEntry value rtype (now + ttl) now r else r := by
  unfold set_cache
  rw [if_pos h]

/-- `set_cache` on an absent key appends the fresh row. -/
theorem set_cache_eq_append (db : List CacheRow) (key value : String)
    (ttl : Int) (agent : String) (rtype : Option String) (now : Int)
    (h : db.find? (fun r => r.cache_key == key) = none) :
    set_cache db key value ttl agent rtype now =
      db ++ [{ cache_key := key, agent_name := agent, result := value,
               result_type := rtype, expires_at := now + ttl,
               created_at := now, access_count := 0,
               last_accessed := now }] := by
  unfold set_cache
  rw [if_neg (by rw [h]; simp)]

/-- C7: starting from a table with at most one row for `k` (the primary-key
invariant), `set(k, v1, t1); set(k, v2, t2)` leaves exactly one row for `k`,
holding `v2` with `expires_at = now2 + t2` and `last_accessed = now2`, and
the key row's `access_count` strictly increased from the first `set` to the
second.  No second row for `k` is ever created. -/
theorem set_cache_upsert (db : List CacheRow) (k v1 v2 : String) (t1 t2 : Int)
    (a1 a2 : String) (rt1 rt2 : Option String) (now1 now2 : Int)
    (hcount : (db.filter (fun r => r.cache_key == k)).length ≤ 1) :
    ((set_cache (set_cache db k v1 t1 a1 rt1 now1) k v2 t2 a2 rt2 now2).filter
        (fun r => r.cache_key == k)).length = 1 ∧
    ∃ r1 r2,
      (set_cache db k v1 t1 a1 rt1 now1).find? (fun r => r.cache_key == k) = some r1 ∧
      (set_cache (set_cache db k v1 t1 a1 rt1 now1) k v2 t2 a2 rt2 now2).find?
        (fun r => r.cache_key == k) = some r2 ∧
      r2.result = v2 ∧ r2.result_type = rt2 ∧ r2.expires_at = now2 + t2 ∧
      r2.last_accessed = now2 ∧ r1.access_count < r2.access_count := by
  by_cases h0 : (db.find? (fun r => r.cache_key == k)).isSome = true
  · rcases Option.isSome_iff_exists.mp h0 with ⟨r0, hr0⟩
    have hdb1 := set_cache_eq_update db k v1 t1 a1 rt1 now1 h0
    have hfind1 : (set_cache db k v1 t1 a1 rt1 now1).find?
        (fun r => r.cache_key == k) =
        some (overwriteEntry v1 rt1 (now1 + t1) now1 r0) := by
      rw [hdb1, find?_keyed_update db (fun r => r.cache_key == k)
        (overwriteEntry v1 rt1 (now1 + t1) now1) (fun a ha => ha), hr0]
      rfl
    have hdb2 := set_cache_eq_update (set_cache db k v1 t1 a1 rt1 now1)
      k v2 t2 a2 rt2 now2 (by rw [hfind1]; rfl)
    have hfind2 : (set_cache (set_cache db k v1 t1 a1 rt1 now1) k v2 t2 a2 rt2
        now2).find? (fun r => r.cache_key == k) =
        some (overwriteEntry v2 rt2 (now2 + t2) now2
          (overwriteEntry v1 rt1 (now1 + t1) now1 r0)) := by
      rw [hdb2, find?_keyed_update _ (fun r => r.cache_key == k)
        (overwriteEntry v2 rt2 (now2 + t2) now2) (fun a ha => ha), hfind1]
      rfl
    constructor
    · rw [hdb2, filter_keyed_update _ (fun r => r.cache_key == k)
        (overwriteEntry v2 rt2 (now2 + t2) now2) (fun a => rfl), hdb1,
        filter_keyed_update db (fun r => r.cache_key == k)
        (overwriteEntry v1 rt1 (now1 + t1) now1) (fun a => rfl),
        List.length_map, List.length_map]
      have hpr0 := List.find?_some hr0
      have hpos : 0 < (db.filter (fun r => r.cache_key == k)).length := by
        have : r0 ∈ db.filter (fun r => r.cache_key == k) :=
          List.mem_filter.mpr ⟨List.mem_of_find?_eq_some hr0, hpr0⟩
        exact List.length_pos.mpr (List.ne_nil_of_mem this)
      omega
    · exact ⟨_, _, hfind1, hfind2, rfl, rfl, rfl, rfl, Nat.lt_succ_self _⟩
  · have hnone : db.find? (fun r => r.cache_key == k) = none := by
      cases hf : db.find? (fun r => r.cache_key == k)
      · rfl
      · rw [hf] at h0; exact absurd rfl h0
    have hnil : db.filter (fun r => r.cache_key == k) = [] := by
      rw [List.filter_eq_nil_iff]
      intro x hx
      exact (List.find?_eq_none.mp hnone) x hx
    have hdb1 := set_cache_eq_append db k v1 t1 a1 rt1 now1 hnone
    have hfind1 : (set_cache db k v1 t1 a1 rt1 now1).find?
        (fun r => r.cache_key == k) =
        some { cache_key := k, agent_name := a1, result := v1,
               result_type := rt1, expires_at := now1 + t1,
               created_at := now1, access_count := 0,
               last_accessed := now1 } := by
      rw [hdb1, List.find?_append, hnone]
      simp
    have hdb2 := set_cache_eq_update (set_cache db k v1 t1 a1 rt1 now1)
      k v2 t2 a2 rt2 now2 (by rw [hfind1]; rfl)
    have hfind2 : (set_cache (set_cache db k v1 t1 a1 rt1 now1) k v2 t2 a2 rt2
        now2).find? (fun r => r.cache_key == k) =
        some (overwriteEntry v2 rt2 (now2 + t2) now2
          { cache_key := k, agent_name := a1, result := v1,
            result_type := rt1, expires_at := now1 + t1,
            created_at := now1, access_count := 0,
            last_accessed := now1 }) := by
      rw [hdb2, find?_keyed_update _ (fun r => r.cache_key == k)
        (overwriteEntry v2 rt2 (now2 + t2) now2) (fun a ha => ha), hfind1]
      rfl
    constructor
    · rw [hdb2, filter_keyed_update _ (fun r => r.cache_key == k)
        (overwriteEntry v2 rt2 (now2 + t2) now2) (fun a => rfl), hdb1,
        List.filter_append, hnil, List.length_map, List.nil_append]
      simp
    · exact ⟨_, _, hfind1, hfind2, rfl, rfl, rfl, rfl, Nat.lt_succ_self _⟩

/-- Witness for `set_cache_upsert`: the empty table trivially has at most
one row for key "x"; after two sets there is exactly one. -/
theorem set_cache_upsert_witness :
    ((set_cache (set_cache [] "x" "v1" 10 "a" none 0) "x" "v2" 20 "a" none 5).filter
        (fun r => r.cache_key == "x")).length = 1 :=
  (set_cache_upsert [] "x" "v1" "v2" 10 20 "a" "a" none none 0 5
    (by decide)).1

/-! ### Session store: data model (`agent_sessions` table) -/

/-- One conversation turn (`ConversationTurn` in `session_manager.py`);
`content` is the JSON text of the turn's content. -/
structure Turn where
  agent_name : String
  message_type : String
  content : String
  timestamp : Int
  processing_time_ms : Option Nat
  metadata : List (String × String)
deriving DecidableEq, Repr

/-- One row of the `agent_sessions` table (`AgentSessionData`).  The JSON
columns are carried with their parsed shapes: the state and metadata maps as
association lists, the history as a list of turns. -/
structure SessionRow where
  session_id : String
  user_id : String
  agents_involved : List String
  session_state : List (String × String)
  conversation_history : List Turn
  metadata : List (String × String)
  status : String
  created_at : Int
  updated_at : Int
  completed_at : Option Int
deriving DecidableEq, Repr

/-- One `(field, value)` entry of the `updates` dict passed to
`TiDBCommunicationService.update_session`, typed per column;
`unrecognized` stands for any key outside the handled field names, and
`completed_at b` for the key `"completed_at"` with a boolean value (the code
reacts only to the value being exactly `True`). -/
inductive SessUpd where
  | agents_involved (v : List String)
  | session_state (v : List (String × String))
  | conversation_history (v : List Turn)
  | metadata (v : List (String × String))
  | status (v : String)
  | user_id (v : String)
  | completed_at (v : Bool)
  | unrecognized (field : String)
deriving DecidableEq, Repr

/-- Whether an update entry produces a `SET` clause in `update_session`:
the four JSON fields, `status` and `user_id` always do, `completed_at` only
when its value is exactly `True`, anything else never. -/
def recognizedUpd : SessUpd → Bool
  | SessUpd.completed_at v => v
  | SessUpd.unrecognized _ => false
  | _ => true

/-- The effect of one `SET` clause on the target row (`completed_at` maps to
`completed_at = NOW()`). -/
def applySessUpd (now : Int) (s : SessionRow) : SessUpd → SessionRow
  | SessUpd.agents_involved v => { s with agents_involved := v }
  | SessUpd.session_state v => { s with session_state := v }
  | SessUpd.conversation_history v => { s with conversation_history := v }
  | SessUpd.metadata v => { s with metadata := v }
  | SessUpd.status v => { s with status := v }
  | SessUpd.user_id v => { s with user_id := v }
  | SessUpd.completed_at _ => { s with completed_at := some now }
  | SessUpd.unrecognized _ => s

/-- `TiDBCommunicationService.update_session` (lines 832-876): collect the
`SET` clauses of the recognized entries; with none, return without touching
the row; otherwise apply them plus `updated_at = NOW()` to the row with the
session id. -/
def update_session (db : List SessionRow) (sid : String)
    (updates : List SessUpd) (now : Int) : List SessionRow :=
  let clauses := updates.filter recognizedUpd
  if clauses.isEmpty then db
  else
    db.map fun s =>
      if s.session_id == sid then
        { clauses.foldl (applySessUpd now) s with updated_at := now }
      else s

/-! ### C10: update_session writes only whitelisted fields -/

theorem applySessUpd_keeps_key (now : Int) (s : SessionRow) (u : SessUpd) :
    (applySessUpd now s u).session_id = s.session_id ∧
    (applySessUpd now s u).created_at = s.created_at := by
  cases u <;> exact ⟨rfl, rfl⟩

theorem foldl_applySessUpd_keeps_key (now : Int) (us : List SessUpd) :
    ∀ s : SessionRow, (us.foldl (applySessUpd now) s).session_id = s.session_id ∧
      (us.foldl (applySessUpd now) s).created_at = s.created_at := by
  induction us with
  | nil => exact fun s => ⟨rfl, rfl⟩
  | cons u us ih =>
    intro s
    rcases applySessUpd_keeps_key now s u with ⟨h1, h2⟩
    rcases ih (applySessUpd now s u) with ⟨h3, h4⟩
    exact ⟨by rw [List.foldl_cons, h3, h1], by rw [List.foldl_cons, h4, h2]⟩

/-- C10: `update_session` writes only the whitelisted fields — entries
outside the whitelist (and `completed_at` with a value other than exactly
`True`) are silently ignored; with no recognized entry the row is not
touched at all (no `updated_at` bump); other rows and the non-writable
columns `session_id`/`created_at` are never modified; `completed_at = True`
maps to `completed_at = NOW()` and bumps `updated_at`. -/
theorem update_session_correct (db : List SessionRow) (sid : String)
    (updates : List SessUpd) (now : Int) :
    ((∀ u ∈ updates, recognizedUpd u = false) →
      update_session db sid updates now = db) ∧
    (update_session db sid (updates.filter recognizedUpd) now =
      update_session db sid updates now) ∧
    (∀ s ∈ db, s.session_id ≠ sid → s ∈ update_session db sid updates now) ∧
    (∀ s' ∈ update_session db sid updates now, ∃ s ∈ db,
      s'.session_id = s.session_id ∧ s'.created_at = s.created_at) ∧
    (update_session db sid [SessUpd.completed_at false] now = db) ∧
    (update_session db sid [SessUpd.completed_at true] now =
      db.map fun s => if s.session_id == sid then
        { s with completed_at := some now, updated_at := now } else s) := by
  refine ⟨?_, ?_, ?_, ?_, rfl, rfl⟩
  · intro h
    have hnil : updates.filter recognizedUpd = [] :=
      List.filter_eq_nil_iff.mpr (fun u hu => by simp [h u hu])
    unfold update_session
    rw [hnil]
    rfl
  · have hff : (updates.filter recognizedUpd).filter recognizedUpd =
        updates.filter recognizedUpd := by
      rw [List.filter_filter]
      congr 1
      funext a
      rw [Bool.and_self]
    unfold update_session
    rw [hff]
  · intro s hs hne
    unfold update_session
    by_cases hcl : (updates.filter recognizedUpd).isEmpty = true
    · rw [if_pos hcl]; exact hs
    · rw [if_neg hcl]
      exact List.mem_map.mpr ⟨s, hs, by rw [if_neg (by simpa using hne)]⟩
  · intro s' hs'
    unfold update_session at hs'
    by_cases hcl : (updates.filter recognizedUpd).isEmpty = true
    · rw [if_pos hcl] at hs'
      exact ⟨s', hs', rfl, rfl⟩
    · rw [if_neg hcl] at hs'
      rcases List.mem_map.mp hs' with ⟨s, hs, rfl⟩
      by_cases hid : (s.session_id == sid) = true
      · rw [if_pos hid]
        rcases foldl_applySessUpd_keeps_key now (updates.filter recognizedUpd) s
          with ⟨h1, h2⟩
        exact ⟨s, hs, h1, h2⟩
      · rw [if_neg hid]
        exact ⟨s, hs, rfl, rfl⟩

/-! ### Session manager (`session_manager.py`) -/

/-- The manager state: the in-process `active_sessions` cache and the
`agent_sessions` table. -/
structure SessionMgr where
  cache : List SessionRow
  db : List SessionRow
deriving DecidableEq, Repr

/-- Python dict assignment `active_sessions[sid] = s`. -/
def cachePut (c : List SessionRow) (s : SessionRow) : List SessionRow :=
  (c.filter (fun t => !(t.session_id == s.session_id))) ++ [s]

/-- `SessionManager.get_session`: the memory cache first, then the table;
an `active` row fetched from the table is cached as a side effect. -/
def get_session (m : SessionMgr) (sid : String) :
    Option SessionRow × SessionMgr :=
  match m.cache.find? (fun s => s.session_id == sid) with
  | some s => (some s, m)
  | none =>
    match m.db.find? (fun s => s.session_id == sid) with
    | some s =>
      if s.status == "active" then (some s, { m with cache := cachePut m.cache s })
      else (some s, m)
    | none => (none, m)

/-- A `ConversationTurn` as `add_conversation_turn` builds it (timestamp is
`datetime.now()`, metadata defaults to `{}` upstream). -/
def mkTurn (agent mtype content : String) (now : Int) (pt : Option Nat)
    (md : List (String × String)) : Turn :=
  { agent_name := agent, message_type := mtype, content := content,
    timestamp := now, processing_time_ms := pt, metadata := md }

/-- `SessionManager.add_conversation_turn` (lines 189-234): fetch the
session (raising when missing), append the turn to its history, write the
new history through `update_session`, and refresh the cached copy when
present.  No status check of any kind is made. -/
def add_conversation_turn (m : SessionMgr) (sid agent mtype content : String)
    (pt : Option Nat) (md : List (String × String)) (now : Int) :
    Except String SessionMgr :=
  match get_session m sid with
  | (none, _) => Except.error ("Session not found: " ++ sid)
  | (some s, m1) =>
    let newHist := s.conversation_history ++ [mkTurn agent mtype content now pt md]
    Except.ok
      { cache :=
          if (m1.cache.find? (fun t => t.session_id == sid)).isSome then
            m1.cache.map fun t =>
              if t.session_id == sid then { t with conversation_history := newHist }
              else t
          else m1.cache,
        db := update_session m1.db sid [SessUpd.conversation_history newHist] now }

/-- Python `dict[k] = v` on an association list. -/
def assocSet (st : List (String × String)) (k v : String) :
    List (String × String) :=
  if st.any (fun p => p.1 == k) then
    st.map (fun p => if p.1 == k then (k, v) else p)
  else st ++ [(k, v)]

/-- Python `dict.update` (top-level key merge). -/
def assocUpdate (st upds : List (String × String)) : List (String × String) :=
  upds.foldl (fun acc p => assocSet acc p.1 p.2) st

/-- `SessionManager.update_session_state` (merge or replace, then write
through; no status check). -/
def update_session_state (m : SessionMgr) (sid : String)
    (stateUpdates : List (String × String)) (merge : Bool) (now : Int) :
    Except String SessionMgr :=
  match get_session m sid with
  | (none, _) => Except.error ("Session not found: " ++ sid)
  | (some s, m1) =>
    let newState := if merge then assocUpdate s.session_state stateUpdates
                    else stateUpdates
    Except.ok
      { cache :=
          if (m1.cache.find? (fun t => t.session_id == sid)).isSome then
            m1.cache.map fun t =>
              if t.session_id == sid then { t with session_state := newState }
              else t
          else m1.cache,
        db := update_session m1.db sid [SessUpd.session_state newState] now }

/-- `SessionManager._update_session_status` (lines 369-391): write
`{"status": status.value}` plus the additional fields through
`update_session`, and set the cached copy's status when present.  There is
no transition validation whatsoever. -/
def updateSessionStatus (m : SessionMgr) (sid : String) (newStatus : String)
    (additional : List SessUpd) (now : Int) : SessionMgr :=
  { cache := m.cache.map fun t =>
      if t.session_id == sid then { t with status := newStatus } else t,
    db := update_session m.db sid (SessUpd.status newStatus :: additional) now }

/-- `SessionManager.complete_session`: updates `{"completed_at": True}`,
plus `metadata` with the outcome when given (read through `get_session`) and
`session_state` when a final state is given; transition to `completed` via
`_update_session_status`; evict the session from the cache. -/
def complete_session (m : SessionMgr) (sid : String) (outcome : Option String)
    (finalState : Option (List (String × String))) (now : Int) : SessionMgr :=
  let step1 : List SessUpd × SessionMgr :=
    match outcome with
    | some oc =>
      match get_session m sid with
      | (some s, m1) =>
        ([SessUpd.completed_at true,
          SessUpd.metadata (assocSet s.metadata "outcome" oc)], m1)
      | (none, m1) => ([SessUpd.completed_at true], m1)
    | none => ([SessUpd.completed_at true], m)
  let upds := step1.1 ++
    (match finalState with
     | some fs => [SessUpd.session_state fs]
     | none => [])
  let m2 := updateSessionStatus step1.2 sid "completed" upds now
  { m2 with cache := m2.cache.filter (fun t => !(t.session_id == sid)) }

/-! ### C5: terminal sessions are not protected -/

theorem update_session_history_row (db : List SessionRow) (sid : String)
    (h : List Turn) (now : Int) :
    ∀ t ∈ update_session db sid [SessUpd.conversation_history h] now,
      t.session_id = sid → t.conversation_history = h := by
  intro t ht hid
  unfold update_session at ht
  rw [if_neg (by simp [recognizedUpd])] at ht
  rcases List.mem_map.mp ht with ⟨t0, _, rfl⟩
  by_cases hc : (t0.session_id == sid) = true
  · rw [if_pos hc]
    rfl
  · rw [if_neg hc] at hid ⊢
    exact absurd hid (by simpa using hc)

theorem update_session_status_row (db : List SessionRow) (sid v : String)
    (now : Int) :
    ∀ t ∈ update_session db sid [SessUpd.status v] now,
      t.session_id = sid → t.status = v := by
  intro t ht hid
  unfold update_session at ht
  rw [if_neg (by simp [recognizedUpd])] at ht
  rcases List.mem_map.mp ht with ⟨t0, _, rfl⟩
  by_cases hc : (t0.session_id == sid) = true
  · rw [if_pos hc]
    rfl
  · rw [if_neg hc] at hid ⊢
    exact absurd hid (by simpa using hc)

/-- C5 (amended): the session manager enforces no lifecycle restriction.
Whenever the session exists — in any status, terminal included —
`add_conversation_turn` succeeds and stores the grown history on every row
of the session, and `_update_session_status` writes any requested status
unconditionally; terminal sessions are only evicted from the in-process
cache. -/
theorem session_lifecycle_not_enforced (m : SessionMgr)
    (sid agent mtype content : String) (pt : Option Nat)
    (md : List (String × String)) (now : Int) (newStatus : String) :
    (∀ s, (get_session m sid).1 = some s →
      ∃ m2, add_conversation_turn m sid agent mtype content pt md now =
          Except.ok m2 ∧
        ∀ t ∈ m2.db, t.session_id = sid →
          t.conversation_history =
            s.conversation_history ++ [mkTurn agent mtype content now pt md]) ∧
    (∀ t ∈ (updateSessionStatus m sid newStatus [] now).db,
      t.session_id = sid → t.status = newStatus) := by
  constructor
  · intro s hs
    unfold add_conversation_turn
    cases hg : get_session m sid with
    | mk o m1 =>
      rw [hg] at hs
      cases hs
      refine ⟨_, rfl, ?_⟩
      exact update_session_history_row m1.db sid _ now
  · exact update_session_status_row m.db sid newStatus now

/-- The single active session of the C5 counterexample. -/
def cexSessRow : SessionRow :=
  { session_id := "s1", user_id := "u", agents_involved := ["tutor"],
    session_state := [], conversation_history := [], metadata := [],
    status := "active", created_at := 0, updated_at := 0,
    completed_at := none }

/-- Manager state holding the session in cache and table. -/
def cexMgr : SessionMgr := { cache := [cexSessRow], db := [cexSessRow] }

/-- The manager after `complete_session` — the session is terminal. -/
def cexMgrCompleted : SessionMgr := complete_session cexMgr "s1" none none 5

/-- The append attempted on the completed session. -/
def cexAppendResult : Except String SessionMgr :=
  add_conversation_turn cexMgrCompleted "s1" "tutor" "reply" "hi" none [] 6

/-- C5 counterexample: after `complete_session` the stored session is
terminal (`status = "completed"`), yet `add_conversation_turn` succeeds and
appends — the call returns ok and the stored history has grown to length 1,
contradicting "append_turn on such a session fails with InvalidState
without appending". -/
theorem session_terminal_mutable_cex :
    cexMgrCompleted.db.map SessionRow.status = ["completed"] ∧
    cexAppendResult.toOption.map
      (fun m2 => m2.db.map (fun t => t.conversation_history.length)) =
      some [1] := by
  decide

/-! ### Notification service (`notification_service.py`) -/

/-- `SubscriptionType` in `notification_service.py`. -/
inductive SubType where
  | all
  | direct
  | pattern
deriving DecidableEq, Repr

/-- One in-process `Subscription`.  The optional Python callback is carried
as behaviour: `hasCallback` is whether one was registered, `callbackRaises`
whether invoking it raises (the `try/except` path). -/
structure Subscription where
  agent_name : String
  channel : String
  subscription_type : SubType
  pattern : Option String
  hasCallback : Bool
  callbackRaises : Bool
  message_count : Nat
deriving DecidableEq, Repr

/-- A value of an event-data dict (`Dict[str, Any]`), string or int. -/
inductive PyVal where
  | s (v : String)
  | i (n : Int)
deriving DecidableEq, Repr

/-- The single-quote character of Python `repr`. -/
def quoteStr : String := String.singleton (Char.ofNat 39)

/-- Python `str` of a dict value. -/
def pyValStr : PyVal → String
  | PyVal.s v => quoteStr ++ v ++ quoteStr
  | PyVal.i n => toString n

/-- Python `str` of one dict item. -/
def pyPairStr (kv : String × PyVal) : String :=
  quoteStr ++ kv.1 ++ quoteStr ++ ": " ++ pyValStr kv.2

/-- Python `str(data)` for a dict: brace-wrapped comma-separated items. -/
def pyDictStr (d : List (String × PyVal)) : String :=
  String.singleton (Char.ofNat 123) ++
    String.intercalate ", " (d.map pyPairStr) ++
    String.singleton (Char.ofNat 125)

/-- Python's `in` on strings: contiguous-substring test. -/
def isInfixB (pat : List Char) : List Char → Bool
  | [] => pat.isEmpty
  | c :: rest => pat.isPrefixOf (c :: rest) || isInfixB pat rest

/-- `pattern in str(data)`. -/
def substrB (pat s : String) : Bool := isInfixB pat.toList s.toList

/-- The predicate of `notify_subscribers` (lines 202-268): ALL always;
DIRECT when `data.get("recipient_agent") == subscription.agent_name`;
PATTERN when the pattern is truthy (`if subscription.pattern:` — neither
`None` nor empty) and is a substring of `str(data)`. -/
def shouldNotify (data : List (String × PyVal)) (sub : Subscription) : Bool :=
  match sub.subscription_type with
  | SubType.all => true
  | SubType.direct =>
    data.lookup "recipient_agent" == some (PyVal.s sub.agent_name)
  | SubType.pattern =>
    match sub.pattern with
    | some p => !p.isEmpty && substrB p (pyDictStr data)
    | none => false

/-- What one `notify_subscribers` call produced: the returned
`notified_count`, the agents whose callback was invoked (in loop order),
those whose callback raised (the exception is logged and swallowed by the
inner `try/except`, so the loop continues), and the subscriptions with
their bumped `message_count`. -/
structure NotifyResult where
  notified : Nat
  invoked : List String
  raised : List String
  subs : List Subscription
deriving DecidableEq, Repr

/-- One iteration of the subscriber loop: a matching subscription has its
callback invoked when present (a raise is swallowed; `message_count` and
`notified_count` are incremented after the `try/except`, so they count the
subscriber regardless), a non-matching one is skipped. -/
def notifyStep (data : List (String × PyVal)) (acc : NotifyResult)
    (sub : Subscription) : NotifyResult :=
  if shouldNotify data sub then
    { notified := acc.notified + 1,
      invoked := acc.invoked ++ (if sub.hasCallback then [sub.agent_name] else []),
      raised := acc.raised ++
        (if sub.hasCallback && sub.callbackRaises then [sub.agent_name] else []),
      subs := acc.subs ++ [{ sub with message_count := sub.message_count + 1 }] }
  else { acc with subs := acc.subs ++ [sub] }

/-- `TriggerNotificationService.notify_subscribers` over the channel's
subscription list (an unknown channel has the empty list, matching the
early `return 0`). -/
def notify_subscribers (subs : List Subscription) (data : List (String × PyVal)) :
    NotifyResult :=
  subs.foldl (notifyStep data) ⟨0, [], [], []⟩

/-! ### C8: pattern matching and fan-out -/

theorem notify_foldl (data : List (String × PyVal)) (subs : List Subscription) :
    ∀ acc : NotifyResult,
      (subs.foldl (notifyStep data) acc).notified =
        acc.notified + (subs.filter (shouldNotify data)).length ∧
      (subs.foldl (notifyStep data) acc).invoked =
        acc.invoked ++ (subs.filter
          (fun s => shouldNotify data s && s.hasCallback)).map Subscription.agent_name := by
  induction subs with
  | nil => intro acc; simp
  | cons s ss ih =>
    intro acc
    rw [List.foldl_cons]
    rcases ih (notifyStep data acc s) with ⟨h1, h2⟩
    by_cases hs : shouldNotify data s = true
    · constructor
      · rw [h1, List.filter_cons, hs]
        simp only [if_true, List.length_cons, notifyStep, hs]
        omega
      · rw [h2]
        simp only [notifyStep, hs, if_true, List.filter_cons, Bool.true_and]
        by_cases hc : s.hasCallback = true
        · simp [hc, List.append_assoc]
        · have hc' : s.hasCallback = false := by simpa using hc
          simp [hc']
    · have hs' : shouldNotify data s = false := by simpa using hs
      constructor
      · rw [h1, List.filter_cons, hs']
        simp [notifyStep, hs']
      · rw [h2, List.filter_cons]
        simp [notifyStep, hs']

/-- C8 (amended): `notify_subscribers` returns the number of matching
subscriptions, invokes exactly the callbacks of the matching subscriptions
that have one — in loop order, independent of whether any callback raises
(a raise is swallowed and stops nothing) — and a PATTERN subscription
matches iff its configured pattern is non-empty and appears as a substring
of the serialized event data. -/
theorem notify_subscribers_amended (subs : List Subscription)
    (data : List (String × PyVal)) :
    (notify_subscribers subs data).notified =
      (subs.filter (shouldNotify data)).length ∧
    (notify_subscribers subs data).invoked =
      (subs.filter (fun s => shouldNotify data s && s.hasCallback)).map
        Subscription.agent_name ∧
    (∀ s : Subscription, s.subscription_type = SubType.pattern →
      (shouldNotify data s = true ↔
        ∃ p, s.pattern = some p ∧ p ≠ "" ∧
          substrB p (pyDictStr data) = true)) ∧
    (∀ b : Bool,
      (notify_subscribers (subs.map fun s => { s with callbackRaises := b })
        data).notified = (notify_subscribers subs data).notified ∧
      (notify_subscribers (subs.map fun s => { s with callbackRaises := b })
        data).invoked = (notify_subscribers subs data).invoked) := by
  have hbase := notify_foldl data subs ⟨0, [], [], []⟩
  refine ⟨by simpa [notify_subscribers] using hbase.1,
    by simpa [notify_subscribers] using hbase.2, ?_, ?_⟩
  · intro s hpat
    unfold shouldNotify
    rw [hpat]
    cases hp : s.pattern with
    | none => simp
    | some p =>
      simp only [Bool.and_eq_true, Bool.not_eq_true', Option.some.injEq]
      constructor
      · rintro ⟨hne, hsub⟩
        refine ⟨p, rfl, ?_, hsub⟩
        intro he
        rw [he] at hne
        exact absurd hne (by decide)
      · rintro ⟨q, hq, hne, hsub⟩
        subst hq
        refine ⟨?_, hsub⟩
        cases hq2 : p.isEmpty
        · rfl
        · exact absurd ((String.isEmpty_iff p).mp hq2) hne
  · intro b
    have hmap := notify_foldl data
      (subs.map fun s => { s with callbackRaises := b }) ⟨0, [], [], []⟩
    have hfil1 : (subs.map fun s => { s with callbackRaises := b }).filter
        (shouldNotify data) =
        (subs.filter (shouldNotify data)).map
          fun s => { s with callbackRaises := b } := by
      rw [List.filter_map]
      rfl
    have hfil2 : (subs.map fun s => { s with callbackRaises := b }).filter
        (fun s => shouldNotify data s && s.hasCallback) =
        (subs.filter (fun s => shouldNotify data s && s.hasCallback)).map
          fun s => { s with callbackRaises := b } := by
      rw [List.filter_map]
      rfl
    constructor
    · rw [show (notify_subscribers (subs.map fun s =>
        { s with callbackRaises := b }) data).notified = _ from hmap.1,
        show (notify_subscribers subs data).notified = _ from hbase.1,
        hfil1, List.length_map]
    · rw [show (notify_subscribers (subs.map fun s =>
        { s with callbackRaises := b }) data).invoked = _ from hmap.2,
        show (notify_subscribers subs data).invoked = _ from hbase.2,
        hfil2, List.map_map]
      rfl

/-- A PATTERN subscription whose configured pattern is the empty string. -/
def cexEmptyPatSub : Subscription :=
  { agent_name := "X", channel := "c", subscription_type := SubType.pattern,
    pattern := some "", hasCallback := true, callbackRaises := false,
    message_count := 0 }

/-- The S6 subscription: PATTERN "urgent" with a callback. -/
def cexUrgentSub : Subscription :=
  { agent_name := "X", channel := "c", subscription_type := SubType.pattern,
    pattern := some "urgent", hasCallback := true, callbackRaises := false,
    message_count := 0 }

/-- C8 counterexample: with the configured pattern `""`, the pattern does
appear as a substring of the serialized event data, yet the subscriber's
callback is not invoked and the call reports zero notified — refuting
"invokes the callback iff the pattern appears as a substring".  (With a
non-empty pattern the claim's S6 behaviour holds: "urgent" fires on
`{"text": "urgent alert"}` and not on `{"text": "routine"}`.) -/
theorem notify_pattern_cex :
    substrB "" (pyDictStr [("text", PyVal.s "routine")]) = true ∧
    (notify_subscribers [cexEmptyPatSub] [("text", PyVal.s "routine")]).invoked
      = [] ∧
    (notify_subscribers [cexEmptyPatSub] [("text", PyVal.s "routine")]).notified
      = 0 ∧
    (notify_subscribers [cexUrgentSub]
      [("text", PyVal.s "urgent alert")]).invoked = ["X"] ∧
    (notify_subscribers [cexUrgentSub]
      [("text", PyVal.s "routine")]).invoked = [] := by
  decide

/-! ### C9: send_message and the LAST_INSERT_ID fallback -/

/-- The `agent_messages` table with its autoincrement counter. -/
structure MsgDB where
  rows : List MessageRow
  nextId : Nat
deriving DecidableEq, Repr

/-- The decimal digit character of `n < 10`. -/
def digitChr (n : Nat) : Char := Char.ofNat (48 + n)

/-- The decimal digits of a natural number, most significant first —
Python `str(int)` for the non-negative database id. -/
def natDigits (n : Nat) : List Char :=
  if n < 10 then [digitChr n]
  else natDigits (n / 10) ++ [digitChr (n % 10)]
termination_by n
decreasing_by
  simp_wf
  omega

/-- Python `str` of a database id. -/
def natToStr (n : Nat) : String := (natDigits n).asString

/-- `TiDBCommunicationService.send_message` (lines 309-332): insert the
row, then run the separate `SELECT LAST_INSERT_ID() as id` (a different
pooled connection may serve it — its fetched row is the `idQueryRow`
argument) and return `str(result["id"]) if result else str(uuid.uuid4())`;
the fresh UUID string is the `uuidFresh` argument. -/
def send_message (db : MsgDB) (channel sender payload : String)
    (recipient : Option String) (priority : Int) (now : Int)
    (idQueryRow : Option Nat) (uuidFresh : String) : String × MsgDB :=
  let row : MessageRow :=
    { id := db.nextId, channel := channel, sender_agent := sender,
      recipient_agent := recipient, message := payload, priority := priority,
      created_at := now, processed := false, processed_at := none,
      processed_by := none }
  let db2 : MsgDB := { rows := db.rows ++ [row], nextId := db.nextId + 1 }
  let message_id :=
    match idQueryRow with
    | some n => natToStr n
    | none => uuidFresh
  (message_id, db2)

theorem digitChr_ne_dash (k : Nat) (hk : k < 10) :
    digitChr k ≠ Char.ofNat 45 := by
  interval_cases k <;> decide

theorem natDigits_ne_dash (n : Nat) : ∀ c ∈ natDigits n, c ≠ Char.ofNat 45 := by
  induction n using Nat.strong_induction_on with
  | _ n ih =>
    intro c hc
    by_cases h : n < 10
    · rw [natDigits, if_pos h] at hc
      rcases List.mem_singleton.mp hc with rfl
      exact digitChr_ne_dash n h
    · rw [natDigits, if_neg h] at hc
      rcases List.mem_append.mp hc with hc | hc
      · exact ih (n / 10) (by omega) c hc
      · rcases List.mem_singleton.mp hc with rfl
        exact digitChr_ne_dash (n % 10) (by omega)

theorem natToStr_no_dash (n : Nat) : Char.ofNat 45 ∉ (natToStr n).toList := by
  intro hmem
  exact natDigits_ne_dash n _ hmem rfl

/-- C9: when the id query after the insert returns no row, `send_message`
returns the fresh UUID string instead; since a UUID string contains a
hyphen and a stored message id renders as a pure decimal string, the
returned identifier matches no stored row — looking a message up by it
finds nothing, so it cannot be used to ack or fetch the published
message. -/
theorem send_message_uuid_fallback (db : MsgDB)
    (channel sender payload : String) (recipient : Option String)
    (priority now : Int) (uuidFresh : String)
    (hdash : Char.ofNat 45 ∈ uuidFresh.toList) :
    (send_message db channel sender payload recipient priority now none
      uuidFresh).1 = uuidFresh ∧
    (∀ m ∈ (send_message db channel sender payload recipient priority now none
      uuidFresh).2.rows, natToStr m.id ≠ uuidFresh) ∧
    (send_message db channel sender payload recipient priority now none
      uuidFresh).2.rows.find? (fun m => natToStr m.id == uuidFresh) = none := by
  have hne : ∀ m : MessageRow, natToStr m.id ≠ uuidFresh := by
    intro m he
    rw [← he] at hdash
    exact natToStr_no_dash m.id hdash
  refine ⟨rfl, fun m _ => hne m, ?_⟩
  rw [List.find?_eq_none]
  intro m _
  simpa using hne m

/-- Witness for `send_message_uuid_fallback`: the UUID-shaped string
`"ab-cd"` contains a hyphen; sending into an empty table with a rowless id
query returns it, and it corresponds to no stored row. -/
theorem send_message_uuid_fallback_witness :
    (send_message ⟨[], 1⟩ "ops" "A" "x" none 5 0 none "ab-cd").1 = "ab-cd" :=
  (send_message_uuid_fallback ⟨[], 1⟩ "ops" "A" "x" none 5 0 "ab-cd"
    (by decide)).1
